import Mathlib

/-!
Verification of the email candidate generation and deliverability
verification engine of `email_enricher.py` (repository
haytham10/linkedIn_scraper).

The Python source is shallowly embedded: pure string manipulation becomes
Lean functions over `String` (operating on `String.data` so that every
definition kernel-evaluates), the network (SMTP peers, DNS) becomes
explicit oracle functions passed as parameters, the module-level MX cache
becomes explicit state passing, and the side effects relevant to the
claims (inter-probe delays, SMTP connection attempts) are recorded in an
explicit event trace.
-/

namespace EmailEnricher

/-! ## String helpers

The Python code works with `str`; we embed the operations it uses
(`.lower()`, `re.sub("[^a-z]", "", _)`, slicing `[:1]`, `.strip()`,
`.split(c)`, `.rstrip('.')`) as total functions on `String.data` so they
reduce in the kernel. -/

/-- Python `s.lower()` restricted to the characters that survive the
`[^a-z]` filter: ASCII case folding (non-ASCII letters are dropped by the
filter on both sides either way). -/
def lcData (s : String) : List Char :=
  s.data.map Char.toLower

/-- Python `re.sub(r"[^a-z]", "", s.lower())`: lowercase, then keep only
the letters a-z. -/
def cleanName (s : String) : String :=
  String.mk ((lcData s).filter (fun c => decide ('a' ≤ c ∧ c ≤ 'z')))

/-- Python slicing `s[:1]`: the first character as a string, or empty. -/
def take1 (s : String) : String :=
  String.mk (s.data.take 1)

/-- Python `a and b` on strings: falsy (empty) short-circuits. -/
def pand (a b : String) : String :=
  if a = "" then a else b

/-- Python `s.strip()`. -/
def pyStrip (s : String) : String :=
  String.mk (((s.data.dropWhile Char.isWhitespace).reverse.dropWhile
    Char.isWhitespace).reverse)

/-- Python `s.split(c)` on a single-character separator (always returns a
non-empty list of fields). -/
def splitOnChar (c : Char) : List Char → List (List Char)
  | [] => [[]]
  | x :: xs =>
    let r := splitOnChar c xs
    if x = c then [] :: r
    else
      match r with
      | [] => [[x]]
      | y :: ys => (x :: y) :: ys

/-- Python `s.rstrip('.')`. -/
def rstripDot (s : String) : String :=
  String.mk ((s.data.reverse.dropWhile (fun c => c = '.')).reverse)

/-- Lowercasing a whole string (Python `.lower()` for the ASCII range the
code relies on). -/
def toLowerStr (s : String) : String :=
  String.mk (lcData s)

lemma string_eq_iff_data {a b : String} : a = b ↔ a.data = b.data := by
  constructor
  · intro h; rw [h]
  · intro h; cases a; cases b; cases h; rfl

lemma data_append (a b : String) : (a ++ b).data = a.data ++ b.data := by
  cases a; cases b; rfl

lemma append_eq_empty_iff (a b : String) : a ++ b = "" ↔ a = "" ∧ b = "" := by
  rw [string_eq_iff_data, data_append]
  show a.data ++ b.data = [] ↔ _
  rw [List.append_eq_nil]
  constructor
  · rintro ⟨ha, hb⟩
    exact ⟨string_eq_iff_data.mpr ha, string_eq_iff_data.mpr hb⟩
  · rintro ⟨ha, hb⟩
    exact ⟨string_eq_iff_data.mp ha, string_eq_iff_data.mp hb⟩

lemma take1_eq_empty_iff (s : String) : take1 s = "" ↔ s = "" := by
  rw [take1, string_eq_iff_data]
  show s.data.take 1 = [] ↔ _
  rw [List.take_eq_nil_iff, string_eq_iff_data]
  simp

/-! ## Candidate generation (`generate_candidates`, lines 142-180) -/

/-- The generic inbox aliases of the fallback block in
`generate_candidates`. -/
def genericAliases : List String :=
  ["hello", "contact", "info", "hi", "team", "support", "sales", "admin"]

/-- The `pieces` list built by `generate_candidates` from the cleaned
names, with Python string truthiness (`x and y`) embedded by `pand` and
the precomputed `fl`/`lf` locals kept as in the source. -/
def piecesList (f l : String) : List String :=
  let fl := if f ≠ "" then take1 f ++ l else ""
  let lf := if l ≠ "" then take1 l ++ f else ""
  [f,
   pand f (pand l (f ++ "." ++ l)),
   pand f (pand l fl),
   pand f (pand l (f ++ l)),
   pand f (pand l (f ++ "_" ++ l)),
   pand f (pand l (f ++ "-" ++ l)),
   pand f (pand l (take1 f ++ l)),
   pand f (pand l (take1 f ++ "." ++ l)),
   pand f (pand l (f ++ take1 l)),
   pand f (pand l (f ++ "." ++ take1 l)),
   l,
   lf]

/-- Order-preserving de-duplication with an explicit seen set, as in the
source's `seen` / `result` loop. -/
def dedupAux (seen : List String) : List String → List String
  | [] => []
  | c :: cs => if c ∈ seen then dedupAux seen cs else c :: dedupAux (c :: seen) cs

def dedup (xs : List String) : List String := dedupAux [] xs

/-- `generate_candidates(first, last, domain)` from the source: clean the
names, return `[]` if both cleaned names are empty, otherwise build the
pieces, keep the truthy ones at `@domain`, fall back to the generic
aliases when no combo exists, and de-duplicate preserving order. -/
def generate_candidates (first last domain : String) : List String :=
  let first_clean := cleanName first
  let last_clean := cleanName last
  if first_clean = "" ∧ last_clean = "" then []
  else
    let combos := ((piecesList first_clean last_clean).filter
      (fun p => p != "")).map (fun p => p ++ "@" ++ domain)
    let combos2 :=
      if combos = [] then genericAliases.map (fun a => a ++ "@" ++ domain)
      else combos
    dedup combos2

/-- The local-part sequence exactly as the spec sentence for claim C3
words it: the twelve patterns in priority order, where a pattern is
skipped entirely whenever one of its required name parts is missing (in
particular `lfirst` needs both the last and the first name). -/
def claimedPatterns (f l : String) : List String :=
  (if f ≠ "" then [f] else []) ++
  (if f ≠ "" ∧ l ≠ "" then
     [f ++ "." ++ l, take1 f ++ l, f ++ l, f ++ "_" ++ l, f ++ "-" ++ l,
      take1 f ++ l, take1 f ++ "." ++ l, f ++ take1 l, f ++ "." ++ take1 l]
   else []) ++
  (if l ≠ "" then [l] else []) ++
  (if f ≠ "" ∧ l ≠ "" then [take1 l ++ f] else [])

/-- The candidate list claim C3 describes: cleaned names, the claimed
pattern sequence at `@domain`, de-duplicated preserving first-seen
order. -/
def claimedCandidates (first last domain : String) : List String :=
  dedup ((claimedPatterns (cleanName first) (cleanName last)).map
    (fun p => p ++ "@" ++ domain))

/-- The amended pattern sequence: identical to `claimedPatterns` except
that the final `lfirst` pattern is emitted whenever the cleaned last name
is non-empty, as last-initial followed by the cleaned first name — which
degrades to the bare last-initial when the first name is empty. -/
def amendedPatterns (f l : String) : List String :=
  (if f ≠ "" then [f] else []) ++
  (if f ≠ "" ∧ l ≠ "" then
     [f ++ "." ++ l, take1 f ++ l, f ++ l, f ++ "_" ++ l, f ++ "-" ++ l,
      take1 f ++ l, take1 f ++ "." ++ l, f ++ take1 l, f ++ "." ++ take1 l]
   else []) ++
  (if l ≠ "" then [l] else []) ++
  (if l ≠ "" then [take1 l ++ f] else [])

/-- The candidate list of the amended claim C3. -/
def amendedCandidates (first last domain : String) : List String :=
  dedup ((amendedPatterns (cleanName first) (cleanName last)).map
    (fun p => p ++ "@" ++ domain))

lemma ne_empty_left {a : String} (b : String) (h : a ≠ "") : a ++ b ≠ "" :=
  fun hh => h ((append_eq_empty_iff _ _).mp hh).1

lemma ne_empty_right (a : String) {b : String} (h : b ≠ "") : a ++ b ≠ "" :=
  fun hh => h ((append_eq_empty_iff _ _).mp hh).2

lemma filter_piecesList (f l : String) :
    (piecesList f l).filter (fun p => p != "") = amendedPatterns f l := by
  by_cases hf : f = "" <;> by_cases hl : l = ""
  · subst hf; subst hl; decide
  · subst hf
    have ht : take1 l ≠ "" := fun h => hl ((take1_eq_empty_iff l).mp h)
    have hlf : take1 l ++ "" ≠ "" := ne_empty_left _ ht
    have bl : (l != "") = true := bne_iff_ne.mpr hl
    have bt : (take1 l != "") = true := bne_iff_ne.mpr ht
    have blf : (take1 l ++ "" != "") = true := bne_iff_ne.mpr hlf
    simp [piecesList, amendedPatterns, pand, List.filter, hl, bl, bt, blf]
  · subst hl
    have bf : (f != "") = true := bne_iff_ne.mpr hf
    simp [piecesList, amendedPatterns, pand, List.filter, hf, bf]
  · have bf : (f != "") = true := bne_iff_ne.mpr hf
    have bl : (l != "") = true := bne_iff_ne.mpr hl
    have b2 : (f ++ "." ++ l != "") = true := bne_iff_ne.mpr (ne_empty_right _ hl)
    have b3 : (take1 f ++ l != "") = true := bne_iff_ne.mpr (ne_empty_right _ hl)
    have b4 : (f ++ l != "") = true := bne_iff_ne.mpr (ne_empty_right _ hl)
    have b5 : (f ++ "_" ++ l != "") = true := bne_iff_ne.mpr (ne_empty_right _ hl)
    have b6 : (f ++ "-" ++ l != "") = true := bne_iff_ne.mpr (ne_empty_right _ hl)
    have b8 : (take1 f ++ "." ++ l != "") = true := bne_iff_ne.mpr (ne_empty_right _ hl)
    have b9 : (f ++ take1 l != "") = true := bne_iff_ne.mpr (ne_empty_left _ hf)
    have b10 : (f ++ "." ++ take1 l != "") = true :=
      bne_iff_ne.mpr (ne_empty_left _ (ne_empty_left _ hf))
    have b12 : (take1 l ++ f != "") = true := bne_iff_ne.mpr (ne_empty_right _ hf)
    simp [piecesList, amendedPatterns, pand, List.filter, hf, hl,
      bf, bl, b2, b3, b4, b5, b6, b8, b9, b10, b12]

lemma amendedPatterns_ne_nil (f l : String) (h : ¬(f = "" ∧ l = "")) :
    amendedPatterns f l ≠ [] := by
  by_cases hf : f = ""
  · have hl : l ≠ "" := fun hl => h ⟨hf, hl⟩
    simp [amendedPatterns, hf, hl]
  · simp [amendedPatterns, hf]

lemma amendedPatterns_length_le (f l : String) :
    (amendedPatterns f l).length ≤ 12 := by
  by_cases hf : f = "" <;> by_cases hl : l = "" <;>
    simp [amendedPatterns, hf, hl]

lemma amendedPatterns_cons (f l : String) (hf : f ≠ "") :
    amendedPatterns f l = f :: (amendedPatterns f l).tail := by
  simp [amendedPatterns, hf]

lemma dedup_cons (x : String) (xs : List String) :
    dedup (x :: xs) = x :: dedupAux [x] xs := by
  simp [dedup, dedupAux]

lemma dedupAux_length_le (xs : List String) :
    ∀ seen, (dedupAux seen xs).length ≤ xs.length := by
  induction xs with
  | nil => intro seen; simp [dedupAux]
  | cons a t ih =>
    intro seen
    simp only [dedupAux]
    split
    · exact Nat.le_succ_of_le (ih seen)
    · simpa using ih (a :: seen)

lemma generate_candidates_eq_amended (first last domain : String)
    (h : ¬(cleanName first = "" ∧ cleanName last = "")) :
    generate_candidates first last domain = amendedCandidates first last domain := by
  unfold generate_candidates amendedCandidates
  rw [if_neg h]
  have hne : (amendedPatterns (cleanName first) (cleanName last)).map
      (fun p => p ++ "@" ++ domain) ≠ [] := by
    simpa using amendedPatterns_ne_nil _ _ h
  simp only [filter_piecesList, if_neg hne]

lemma amendedCandidates_head (first last domain : String)
    (hf : cleanName first ≠ "") :
    (amendedCandidates first last domain).headD "" =
      cleanName first ++ "@" ++ domain := by
  unfold amendedCandidates
  rw [amendedPatterns_cons _ _ hf, List.map_cons, dedup_cons]
  rfl

/-- Claim C2: the source contradicts the claim.  When both cleaned names
are empty, `generate_candidates` returns the empty list via its early
return, so the generic-alias fallback block (whose own comment promises
the eight generic inboxes when the names are missing) is unreachable and
the claimed eight-alias output never materialises. -/
theorem C2_empty_names_yield_no_candidates :
    generate_candidates "" "" "acme.io" = [] ∧
    generate_candidates "" "" "acme.io" ≠
      genericAliases.map (fun a => a ++ "@" ++ "acme.io") := by
  constructor
  · rfl
  · decide

/-- Claim C3, counterexample: with an empty first name and last name
"Smith", the code emits the degenerate `lfirst` candidate `s@acme.io`
(the bare last-name initial), which the claim says must be skipped
because its required first name part is missing. -/
theorem C3_counterexample_lfirst_not_skipped :
    generate_candidates "" "Smith" "acme.io" = ["smith@acme.io", "s@acme.io"] ∧
    claimedCandidates "" "Smith" "acme.io" = ["smith@acme.io"] ∧
    generate_candidates "" "Smith" "acme.io" ≠
      claimedCandidates "" "Smith" "acme.io" := by
  refine ⟨by decide, by decide, by decide⟩

/-- Claim C3 as amended: whenever at least one cleaned name part is
non-empty, the generator's output is exactly the twelve-pattern priority
sequence at `@domain`, de-duplicated preserving first-seen order, where a
pattern lacking a required part is skipped — except the final `lfirst`
pattern, which is emitted whenever the cleaned last name is non-empty (as
the last-name initial followed by the cleaned first name, degrading to
the bare last initial when the first name is empty).  Consequently the
output never exceeds 12 entries and its first element is `first@domain`
whenever the cleaned first name is non-empty. -/
theorem C3_candidate_sequence (first last domain : String)
    (h : ¬(cleanName first = "" ∧ cleanName last = "")) :
    generate_candidates first last domain = amendedCandidates first last domain ∧
    (generate_candidates first last domain).length ≤ 12 ∧
    (cleanName first ≠ "" →
      (generate_candidates first last domain).headD "" =
        cleanName first ++ "@" ++ domain) := by
  have key := generate_candidates_eq_amended first last domain h
  refine ⟨key, ?_, ?_⟩
  · rw [key]
    unfold amendedCandidates dedup
    calc (dedupAux [] ((amendedPatterns (cleanName first) (cleanName last)).map
          (fun p => p ++ "@" ++ domain))).length
        ≤ ((amendedPatterns (cleanName first) (cleanName last)).map
          (fun p => p ++ "@" ++ domain)).length := dedupAux_length_le _ _
      _ = (amendedPatterns (cleanName first) (cleanName last)).length :=
          List.length_map _ _
      _ ≤ 12 := amendedPatterns_length_le _ _
  · intro hf
    rw [key]
    exact amendedCandidates_head first last domain hf

/-- Witness for C3 at the concrete lead "Jane Doe" at `acme.io`. -/
theorem C3_candidate_sequence_witness :
    ¬(cleanName "Jane" = "" ∧ cleanName "Doe" = "") ∧
    generate_candidates "Jane" "Doe" "acme.io" =
      amendedCandidates "Jane" "Doe" "acme.io" ∧
    (generate_candidates "Jane" "Doe" "acme.io").headD "" = "jane@acme.io" := by
  have h : ¬(cleanName "Jane" = "" ∧ cleanName "Doe" = "") := by decide
  have t := C3_candidate_sequence "Jane" "Doe" "acme.io" h
  refine ⟨h, t.1, ?_⟩
  rw [t.2.2 (by decide)]
  decide

/-! ## SMTP probing (`smtp_rcpt_check`, lines 205-263) and candidate
selection (`choose_best`, lines 266-276)

The network is an oracle `Net`: for a host and a recipient it yields
either `none` — a transport-level fault anywhere in the connection
(connect, greeting, STARTTLS, reading a response), which the source
catches locally — or `some (mailCode, rcptCode)`, the response codes the
server gives to `MAIL FROM:<>` and to `RCPT TO:<recipient>` on that
connection.  The timestamp feeding the synthetic negative-control local
part is a parameter `ts`.  Delays (`smart_delay()`) and connection
attempts are recorded in an event trace. -/

/-- Network oracle: `net host recipient`. -/
abbrev Net := String → String → Option (Nat × Nat)

/-- Observable side effects of the probe loop: one `delay` per
`smart_delay()` call and one `conn host recipient` per SMTP connection
attempt. -/
inductive Ev where
  | delay : Ev
  | conn : String → String → Ev
deriving DecidableEq

/-- Python `email.split('@')[1]`. -/
def emailDomain (email : String) : String :=
  String.mk ((splitOnChar '@' email.data).getD 1 [])

/-- The synthetic negative-control recipient
`noone-{timestamp}@{domain of email}` of the catch-all check. -/
def fakeAddr (ts : Nat) (email : String) : String :=
  "noone-" ++ toString ts ++ "@" ++ emailDomain email

/-- The second, negative-control connection of the catch-all check: its
`MAIL FROM` code is ignored by the source; a 2xx on the fake recipient
means `CATCH_ALL`, anything else — including a transport fault on this
second connection — means `DELIVERABLE`. -/
def catchAllCheck (net : Net) (ts : Nat) (email host : String) : String × String :=
  match net host (fakeAddr ts email) with
  | none => ("DELIVERABLE", host)
  | some (_, codeFake) =>
    if 200 ≤ codeFake ∧ codeFake < 300 then ("CATCH_ALL", host)
    else ("DELIVERABLE", host)

/-- The `for host in mx_hosts` loop of `smtp_rcpt_check`: delay, connect,
`MAIL FROM` (≥ 400 → next host), `RCPT TO` (2xx → catch-all check, 5xx →
`UNDELIVERABLE`, anything else → next host), any caught fault → next
host; exhaustion → `("MX_UNVERIFIABLE", "all_failed")`. -/
def rcptLoop (net : Net) (ts : Nat) (email : String) :
    List String → (String × String) × List Ev
  | [] => (("MX_UNVERIFIABLE", "all_failed"), [])
  | host :: rest =>
    match net host email with
    | none =>
      let r := rcptLoop net ts email rest
      (r.1, Ev.delay :: Ev.conn host email :: r.2)
    | some (mailCode, rcptCode) =>
      if 400 ≤ mailCode then
        let r := rcptLoop net ts email rest
        (r.1, Ev.delay :: Ev.conn host email :: r.2)
      else if 200 ≤ rcptCode ∧ rcptCode < 300 then
        (catchAllCheck net ts email host,
         [Ev.delay, Ev.conn host email, Ev.conn host (fakeAddr ts email)])
      else if 500 ≤ rcptCode ∧ rcptCode < 600 then
        (("UNDELIVERABLE", host), [Ev.delay, Ev.conn host email])
      else
        let r := rcptLoop net ts email rest
        (r.1, Ev.delay :: Ev.conn host email :: r.2)

/-- `smtp_rcpt_check(email, mx_hosts)`: an empty host list short-circuits
to `("MX_UNVERIFIABLE", "no_mx")` before any delay or connection. -/
def smtp_rcpt_check (net : Net) (ts : Nat) (email : String)
    (mxHosts : List String) : (String × String) × List Ev :=
  match mxHosts with
  | [] => (("MX_UNVERIFIABLE", "no_mx"), [])
  | host :: rest => rcptLoop net ts email (host :: rest)

/-- The `for email in candidates` loop of `choose_best`: stop on
`DELIVERABLE` or `CATCH_ALL`, otherwise (`UNDELIVERABLE` as well as
`MX_UNVERIFIABLE`) continue with the next candidate. -/
def chooseLoop (net : Net) (ts : Nat) (mxHosts : List String) :
    List String → Option (String × String) × List Ev
  | [] => (none, [])
  | email :: rest =>
    let r := smtp_rcpt_check net ts email mxHosts
    if r.1.1 = "DELIVERABLE" then (some (email, "DELIVERABLE"), r.2)
    else if r.1.1 = "CATCH_ALL" then (some (email, "CATCH_ALL"), r.2)
    else
      let r2 := chooseLoop net ts mxHosts rest
      (r2.1, r.2 ++ r2.2)

/-- `choose_best(candidates, mx_hosts)`: first confident per-candidate
outcome wins; exhaustion falls back to
`(candidates[0] if candidates else "", "MX_UNVERIFIABLE")`. -/
def choose_best (net : Net) (ts : Nat) (candidates mxHosts : List String) :
    (String × String) × List Ev :=
  match chooseLoop net ts mxHosts candidates with
  | (some res, t) => (res, t)
  | (none, t) => ((candidates.headD "", "MX_UNVERIFIABLE"), t)

/-- A host on which the probe is inconclusive and the loop advances:
a caught transport fault, a `MAIL FROM` code ≥ 400, or an `RCPT TO` code
that is neither 2xx nor 5xx. -/
def hostSkipped (net : Net) (email host : String) : Prop :=
  net host email = none ∨
  ∃ m r, net host email = some (m, r) ∧
    (400 ≤ m ∨ (¬(200 ≤ r ∧ r < 300) ∧ ¬(500 ≤ r ∧ r < 600)))

lemma rcptLoop_skip (net : Net) (ts : Nat) (email host : String)
    (rest : List String) (h : hostSkipped net email host) :
    (rcptLoop net ts email (host :: rest)).1 = (rcptLoop net ts email rest).1 := by
  rcases h with hnone | ⟨m, r, hsome, hcase⟩
  · simp [rcptLoop, hnone]
  · rcases hcase with hm | ⟨h2, h5⟩
    · simp [rcptLoop, hsome, hm]
    · by_cases hm : 400 ≤ m <;> simp [rcptLoop, hsome, hm, h2, h5]

lemma rcptLoop_skip_prefix (net : Net) (ts : Nat) (email : String)
    (pre hs : List String) (h : ∀ x ∈ pre, hostSkipped net email x) :
    (rcptLoop net ts email (pre ++ hs)).1 = (rcptLoop net ts email hs).1 := by
  induction pre with
  | nil => rfl
  | cons a t ih =>
    rw [List.cons_append, rcptLoop_skip net ts email a (t ++ hs)
      (h a (List.mem_cons_self a t))]
    exact ih (fun x hx => h x (List.mem_cons_of_mem a hx))

lemma smtp_eq_rcptLoop (net : Net) (ts : Nat) (email : String)
    (hosts : List String) (h : hosts ≠ []) :
    smtp_rcpt_check net ts email hosts = rcptLoop net ts email hosts := by
  cases hosts with
  | nil => exact absurd rfl h
  | cons a t => rfl

/-- Claim C1: whenever the probe reaches a host (all earlier hosts being
inconclusive) whose `RCPT TO` for the candidate is a 2xx accept, and the
negative-control recipient on the second connection to the same host is
also accepted with a 2xx, the outcome is `CATCH_ALL` with that host —
never `DELIVERABLE`. -/
theorem C1_control_accept_downgrades_to_catch_all (net : Net) (ts : Nat)
    (email : String) (pre rest : List String) (host : String)
    (m r m2 r2 : Nat)
    (hpre : ∀ x ∈ pre, hostSkipped net email x)
    (h1 : net host email = some (m, r)) (h2 : m < 400)
    (h3 : 200 ≤ r ∧ r < 300)
    (h4 : net host (fakeAddr ts email) = some (m2, r2))
    (h5 : 200 ≤ r2 ∧ r2 < 300) :
    (smtp_rcpt_check net ts email (pre ++ host :: rest)).1 = ("CATCH_ALL", host) := by
  rw [smtp_eq_rcptLoop net ts email _ (by simp),
    rcptLoop_skip_prefix net ts email pre (host :: rest) hpre]
  have hm : ¬ 400 ≤ m := by omega
  simp [rcptLoop, h1, hm, h3, catchAllCheck, h4, h5]

/-- Witness for C1: a host that accepts every recipient. -/
def netAcceptAll : Net := fun _ _ => some (250, 250)

theorem C1_control_accept_downgrades_to_catch_all_witness :
    (smtp_rcpt_check netAcceptAll 0 "a@b.c" ["mx1"]).1 = ("CATCH_ALL", "mx1") := by
  have h := C1_control_accept_downgrades_to_catch_all netAcceptAll 0 "a@b.c"
    [] [] "mx1" 250 250 250 250 (by intro x hx; cases hx) rfl (by omega)
    (by omega) rfl (by omega)
  simpa using h

/-- Claim C4: per-host classification of the probe.  A 2xx `RCPT TO`
answer proceeds to the catch-all check on the same host; a 5xx answer is
`UNDELIVERABLE` with that host; a transport fault, a `MAIL FROM` code
≥ 400, or any other `RCPT TO` answer (4xx included) advances to the next
host; exhausting every host without an accept or a 5xx reject yields
`MX_UNVERIFIABLE`. -/
theorem C4_per_host_classification (net : Net) (ts : Nat) (email : String) :
    (∀ host rest, hostSkipped net email host →
      (smtp_rcpt_check net ts email (host :: rest)).1 =
        (rcptLoop net ts email rest).1) ∧
    (∀ host rest m r, net host email = some (m, r) → m < 400 →
      500 ≤ r → r < 600 →
      (smtp_rcpt_check net ts email (host :: rest)).1 = ("UNDELIVERABLE", host)) ∧
    (∀ host rest m r, net host email = some (m, r) → m < 400 →
      200 ≤ r → r < 300 →
      (smtp_rcpt_check net ts email (host :: rest)).1 =
        catchAllCheck net ts email host) ∧
    (∀ hosts, hosts ≠ [] → (∀ x ∈ hosts, hostSkipped net email x) →
      (smtp_rcpt_check net ts email hosts).1 = ("MX_UNVERIFIABLE", "all_failed")) := by
  refine ⟨?_, ?_, ?_, ?_⟩
  · intro host rest h
    rw [smtp_eq_rcptLoop net ts email _ (by simp)]
    exact rcptLoop_skip net ts email host rest h
  · intro host rest m r h1 h2 h5a h5b
    rw [smtp_eq_rcptLoop net ts email _ (by simp)]
    have hm : ¬ 400 ≤ m := by omega
    have h2xx : ¬(200 ≤ r ∧ r < 300) := by omega
    simp [rcptLoop, h1, hm, h2xx, h5a, h5b]
  · intro host rest m r h1 h2 h3a h3b
    rw [smtp_eq_rcptLoop net ts email _ (by simp)]
    have hm : ¬ 400 ≤ m := by omega
    simp [rcptLoop, h1, hm, h3a, h3b]
  · intro hosts hne hall
    rw [smtp_eq_rcptLoop net ts email hosts hne]
    have := rcptLoop_skip_prefix net ts email hosts [] (by simpa using hall)
    rw [List.append_nil] at this
    rw [this]
    rfl

/-- Witness nets for the error-handling claims: a host rejecting every
recipient with 5xx after accepting `MAIL FROM`, and a host that always
faults at transport level. -/
def netAllReject : Net := fun _ _ => some (250, 550)

def netAllFault : Net := fun _ _ => none

theorem C4_per_host_classification_witness :
    (smtp_rcpt_check netAllReject 0 "a@b.c" ["mx1"]).1 = ("UNDELIVERABLE", "mx1") ∧
    (smtp_rcpt_check netAllFault 0 "a@b.c" ["mx1", "mx2"]).1 =
      ("MX_UNVERIFIABLE", "all_failed") := by
  constructor
  · exact (C4_per_host_classification netAllReject 0 "a@b.c").2.1 "mx1" [] 250 550
      rfl (by omega) (by omega) (by omega)
  · exact (C4_per_host_classification netAllFault 0 "a@b.c").2.2.2 ["mx1", "mx2"]
      (by simp) (fun x _ => Or.inl rfl)

lemma chooseLoop_empty_mx (net : Net) (ts : Nat) (cands : List String) :
    chooseLoop net ts [] cands = (none, []) := by
  induction cands with
  | nil => rfl
  | cons e rest ih => simp [chooseLoop, smtp_rcpt_check, ih]

/-- Claim C5: with a non-empty candidate list and an empty resolved host
list, the policy returns the first generated candidate with
`MX_UNVERIFIABLE` and performs no network operation at all — the event
trace is empty: no delay is taken and no SMTP connection attempted. -/
theorem C5_no_hosts_short_circuit (net : Net) (ts : Nat)
    (cands : List String) (_h : cands ≠ []) :
    choose_best net ts cands [] = ((cands.headD "", "MX_UNVERIFIABLE"), []) := by
  simp [choose_best, chooseLoop_empty_mx]

theorem C5_no_hosts_short_circuit_witness :
    choose_best netAcceptAll 0 ["a@b.c"] [] = (("a@b.c", "MX_UNVERIFIABLE"), []) := by
  simpa using C5_no_hosts_short_circuit netAcceptAll 0 ["a@b.c"] (by simp)

lemma chooseLoop_prior_skip (net : Net) (ts : Nat) (hosts : List String) :
    ∀ priorCands cands,
      (∀ c ∈ priorCands,
        (smtp_rcpt_check net ts c hosts).1.1 ≠ "DELIVERABLE" ∧
        (smtp_rcpt_check net ts c hosts).1.1 ≠ "CATCH_ALL") →
      chooseLoop net ts hosts (priorCands ++ cands) =
        ((chooseLoop net ts hosts cands).1,
         (priorCands.map (fun c => (smtp_rcpt_check net ts c hosts).2)).flatten ++
           (chooseLoop net ts hosts cands).2) := by
  intro priorCands
  induction priorCands with
  | nil => intro cands _; simp
  | cons c cs ih =>
    intro cands h
    have hc := h c (List.mem_cons_self c cs)
    rw [List.cons_append]
    simp only [chooseLoop, if_neg hc.1, if_neg hc.2]
    rw [ih cands (fun x hx => h x (List.mem_cons_of_mem c hx))]
    simp [List.append_assoc]

/-- Claim C6: whenever the probe for a candidate is accepted with 2xx on
some host — every earlier host in the resolved list being inconclusive —
and the negative control on the second connection to that host is
rejected (non-2xx) or itself faults at transport level, the probe's
outcome is `DELIVERABLE` with that host, and the policy stops at that
candidate: with any earlier candidates having produced no
`DELIVERABLE`/`CATCH_ALL` decision, the final result is this candidate
with `DELIVERABLE`, and the whole event trace consists of the earlier
candidates' probe events followed by this candidate's — the later
candidates contribute nothing, i.e. none of them is probed. -/
theorem C6_deliverable_stops_policy (net : Net) (ts : Nat) (email : String)
    (priorCands later : List String) (pre rest : List String) (host : String)
    (m r : Nat)
    (hprior : ∀ c ∈ priorCands,
      (smtp_rcpt_check net ts c (pre ++ host :: rest)).1.1 ≠ "DELIVERABLE" ∧
      (smtp_rcpt_check net ts c (pre ++ host :: rest)).1.1 ≠ "CATCH_ALL")
    (hpre : ∀ x ∈ pre, hostSkipped net email x)
    (h1 : net host email = some (m, r)) (h2 : m < 400)
    (h3 : 200 ≤ r) (h4 : r < 300)
    (h5 : net host (fakeAddr ts email) = none ∨
      ∃ m2 r2, net host (fakeAddr ts email) = some (m2, r2) ∧
        ¬(200 ≤ r2 ∧ r2 < 300)) :
    (smtp_rcpt_check net ts email (pre ++ host :: rest)).1 = ("DELIVERABLE", host) ∧
    choose_best net ts (priorCands ++ email :: later) (pre ++ host :: rest) =
      ((email, "DELIVERABLE"),
       (priorCands.map (fun c =>
         (smtp_rcpt_check net ts c (pre ++ host :: rest)).2)).flatten ++
       (smtp_rcpt_check net ts email (pre ++ host :: rest)).2) := by
  have hca : catchAllCheck net ts email host = ("DELIVERABLE", host) := by
    rcases h5 with h | ⟨m2, r2, hs, hr⟩
    · simp [catchAllCheck, h]
    · simp [catchAllCheck, hs, hr]
  have hm : ¬ 400 ≤ m := by omega
  have hsm : (smtp_rcpt_check net ts email (pre ++ host :: rest)).1 =
      ("DELIVERABLE", host) := by
    rw [smtp_eq_rcptLoop net ts email _ (by simp),
      rcptLoop_skip_prefix net ts email pre (host :: rest) hpre]
    simp [rcptLoop, h1, hm, h3, h4, hca]
  refine ⟨hsm, ?_⟩
  have hstat : (smtp_rcpt_check net ts email (pre ++ host :: rest)).1.1 =
      "DELIVERABLE" := by rw [hsm]
  have hloop : chooseLoop net ts (pre ++ host :: rest) (email :: later) =
      (some (email, "DELIVERABLE"),
       (smtp_rcpt_check net ts email (pre ++ host :: rest)).2) := by
    simp [chooseLoop, hstat]
  have hfull := chooseLoop_prior_skip net ts (pre ++ host :: rest) priorCands
    (email :: later) hprior
  simp only [hloop] at hfull
  unfold choose_best
  rw [hfull]

/-- Witness net for C6: the first host faults at transport level, the
second accepts the real candidate and 5xx-rejects everything else (in
particular the negative control). -/
def netNoCatchAll : Net := fun host recip =>
  if host = "mx0" then none
  else if recip = "a@b.c" then some (250, 250) else some (250, 550)

theorem C6_deliverable_stops_policy_witness :
    (smtp_rcpt_check netNoCatchAll 0 "a@b.c" ["mx0", "mx1"]).1 =
      ("DELIVERABLE", "mx1") ∧
    choose_best netNoCatchAll 0 ["a@b.c", "x@b.c"] ["mx0", "mx1"] =
      (("a@b.c", "DELIVERABLE"),
       [Ev.delay, Ev.conn "mx0" "a@b.c", Ev.delay, Ev.conn "mx1" "a@b.c",
        Ev.conn "mx1" (fakeAddr 0 "a@b.c")]) := by
  have h := C6_deliverable_stops_policy netNoCatchAll 0 "a@b.c" [] ["x@b.c"]
    ["mx0"] [] "mx1" 250 250
    (by intro c hc; cases hc)
    (by intro x hx
        rw [List.mem_singleton] at hx
        subst hx
        exact Or.inl (by decide))
    (by decide) (by omega) (by omega) (by omega)
    (Or.inr ⟨250, 550, by decide, by omega⟩)
  exact ⟨h.1, h.2.trans (by decide)⟩

lemma chooseLoop_some_status (net : Net) (ts : Nat) (mx : List String) :
    ∀ cands res t, chooseLoop net ts mx cands = (some res, t) →
      res.2 = "DELIVERABLE" ∨ res.2 = "CATCH_ALL" := by
  intro cands
  induction cands with
  | nil => intro res t h; simp [chooseLoop] at h
  | cons e cs ih =>
    intro res t h
    simp only [chooseLoop] at h
    by_cases h1 : (smtp_rcpt_check net ts e mx).1.1 = "DELIVERABLE"
    · rw [if_pos h1] at h
      obtain ⟨h2, -⟩ := Prod.mk.injEq .. ▸ h
      cases Option.some.inj h2
      exact Or.inl rfl
    · rw [if_neg h1] at h
      by_cases h2 : (smtp_rcpt_check net ts e mx).1.1 = "CATCH_ALL"
      · rw [if_pos h2] at h
        obtain ⟨h3, -⟩ := Prod.mk.injEq .. ▸ h
        cases Option.some.inj h3
        exact Or.inr rfl
      · rw [if_neg h2] at h
        have h3 : (chooseLoop net ts mx cs).1 = some res := by
          have := congrArg Prod.fst h
          simpa using this
        exact ih res (chooseLoop net ts mx cs).2 (by rw [← h3])

lemma chooseLoop_all_undeliverable (net : Net) (ts : Nat) (mx : List String) :
    ∀ cands, (∀ c ∈ cands, (smtp_rcpt_check net ts c mx).1.1 = "UNDELIVERABLE") →
      (chooseLoop net ts mx cands).1 = none := by
  intro cands
  induction cands with
  | nil => intro _; rfl
  | cons e cs ih =>
    intro h
    have he := h e (List.mem_cons_self e cs)
    have h1 : ¬ (smtp_rcpt_check net ts e mx).1.1 = "DELIVERABLE" := by
      rw [he]; decide
    have h2 : ¬ (smtp_rcpt_check net ts e mx).1.1 = "CATCH_ALL" := by
      rw [he]; decide
    simp only [chooseLoop, if_neg h1, if_neg h2]
    exact ih (fun c hc => h c (List.mem_cons_of_mem e hc))

/-- Claim C9: the final status of `choose_best` is always one of
`DELIVERABLE`, `CATCH_ALL` or `MX_UNVERIFIABLE` — never `UNDELIVERABLE`;
in particular, when every candidate is 5xx-rejected by the probe, the
per-candidate `UNDELIVERABLE` outcomes are discarded and the exhaustion
fallback reports the first candidate as `MX_UNVERIFIABLE`. -/
theorem C9_status_never_undeliverable (net : Net) (ts : Nat)
    (cands mx : List String) :
    ((choose_best net ts cands mx).1.2 = "DELIVERABLE" ∨
     (choose_best net ts cands mx).1.2 = "CATCH_ALL" ∨
     (choose_best net ts cands mx).1.2 = "MX_UNVERIFIABLE") ∧
    ((∀ c ∈ cands, (smtp_rcpt_check net ts c mx).1.1 = "UNDELIVERABLE") →
      (choose_best net ts cands mx).1 = (cands.headD "", "MX_UNVERIFIABLE")) := by
  constructor
  · rcases hcl : chooseLoop net ts mx cands with ⟨o, t⟩
    cases o with
    | none => right; right; simp [choose_best, hcl]
    | some res =>
      have := chooseLoop_some_status net ts mx cands res t hcl
      rcases this with h | h
      · left; simp [choose_best, hcl, h]
      · right; left; simp [choose_best, hcl, h]
  · intro hall
    have h0 := chooseLoop_all_undeliverable net ts mx cands hall
    rcases hcl : chooseLoop net ts mx cands with ⟨o, t⟩
    rw [hcl] at h0
    cases o with
    | none => simp [choose_best, hcl]
    | some res => simp at h0

theorem C9_status_never_undeliverable_witness :
    (choose_best netAllReject 0 ["a@b.c", "x@b.c"] ["mx1"]).1 =
      ("a@b.c", "MX_UNVERIFIABLE") := by
  have h := (C9_status_never_undeliverable netAllReject 0 ["a@b.c", "x@b.c"]
    ["mx1"]).2 (by decide)
  simpa using h

/-- Claim C10: calling `choose_best` with an empty candidate list returns
`("", "MX_UNVERIFIABLE")` (with no network activity) instead of raising:
the `candidates[0] if candidates else ""` fallback covers the empty
list. -/
theorem C10_empty_candidates (net : Net) (ts : Nat) (mx : List String) :
    choose_best net ts [] mx = (("", "MX_UNVERIFIABLE"), []) := rfl

/-! ## MX resolution with cache (`get_mx_hosts`, lines 183-202)

DNS is an oracle `DnsWorld`: `mx domain` is `some answers` when the MX
query resolves (the raw exchange strings) and `none` when it raises;
`aRec domain` tells whether `socket.gethostbyname(domain)` succeeds.  The
module-level `_mx_cache` dict becomes an explicit association list
threaded through the call, and the number of network lookups performed by
the call is returned alongside. -/

structure DnsWorld where
  mx : String → Option (List String)
  aRec : String → Bool

abbrev MxCache := List (String × List String)

def cacheFind (cache : MxCache) (d : String) : Option (List String) :=
  (cache.find? (fun p => p.1 == d)).map (fun p => p.2)

/-- Ascending insertion used to model Python `sorted(hosts)` on
strings. -/
def insertHost (x : String) : List String → List String
  | [] => [x]
  | y :: ys => if x ≤ y then x :: y :: ys else y :: insertHost x ys

def sortHosts (xs : List String) : List String := xs.foldr insertHost []

/-- `get_mx_hosts(domain)`: cache hit returns the stored list with no
lookup; otherwise try the MX query (one lookup; answers are
`rstrip('.')`-ed and sorted), falling back to the A record (a second
lookup) yielding `[domain]` on success and `[]` on failure — every branch
stores its result in the cache. -/
def get_mx_hosts (w : DnsWorld) (domain : String) (cache : MxCache) :
    List String × MxCache × Nat :=
  match cacheFind cache domain with
  | some hosts => (hosts, cache, 0)
  | none =>
    match w.mx domain with
    | some answers =>
      let hosts := sortHosts (answers.map rstripDot)
      (hosts, (domain, hosts) :: cache, 1)
    | none =>
      if w.aRec domain then ([domain], (domain, [domain]) :: cache, 2)
      else ([], (domain, []) :: cache, 2)

lemma cacheFind_cons_self (d : String) (hs : List String) (cache : MxCache) :
    cacheFind ((d, hs) :: cache) d = some hs := by
  simp [cacheFind, List.find?]

/-- Claim C7: a second call of the MX resolver for the same domain
performs zero network lookups and returns exactly the list the first call
returned, leaving the cache unchanged — whatever the DNS world and the
prior cache, hence for all three cached shapes (sorted MX hosts, the
`[domain]` A-record fallback, and the empty "no mail service" list). -/
theorem C7_mx_cache_no_second_lookup (w : DnsWorld) (d : String) (cache : MxCache) :
    get_mx_hosts w d (get_mx_hosts w d cache).2.1 =
      ((get_mx_hosts w d cache).1, (get_mx_hosts w d cache).2.1, 0) := by
  rcases hc : cacheFind cache d with - | hosts
  · rcases hm : w.mx d with - | answers
    · rcases ha : w.aRec d with - | -
      · simp [get_mx_hosts, hc, hm, ha, cacheFind_cons_self]
      · simp [get_mx_hosts, hc, hm, ha, cacheFind_cons_self]
    · simp [get_mx_hosts, hc, hm, cacheFind_cons_self]
  · simp [get_mx_hosts, hc]

/-! ## Domain normalisation (`normalize_domain`, lines 89-115)

`tldextract.extract` is a third-party library; it is embedded as an
oracle `extract : String → Option ExtractResult` (with `none` standing
for an exception, which the source catches).  A small concrete model
`tldextractModel` reproduces the library's documented behaviour —
registrable domain = "domain + public suffix", lowercased — for the
inputs exercised by the claim. -/

structure ExtractResult where
  domain : String
  suffix : String
deriving DecidableEq

/-- The fixed social/professional-network blocklist `SOCIAL_DOMAINS`. -/
def SOCIAL_DOMAINS : List String :=
  ["linkedin.com", "facebook.com", "twitter.com", "x.com", "instagram.com",
   "youtube.com", "tiktok.com", "medium.com", "github.com"]

/-- The case-insensitive `^https?://` scheme test. -/
def hasHttpScheme (s : String) : Bool :=
  List.isPrefixOf ("http://".data) (lcData s) ||
  List.isPrefixOf ("https://".data) (lcData s)

/-- The URL handed to the extractor: prepend `http://` when no scheme is
present. -/
def websiteUrl (w : String) : String :=
  if hasHttpScheme w then w else "http://" ++ w

/-- `f"{ext.domain}.{ext.suffix}" if ext.suffix else ext.domain`. -/
def registrableOf (er : ExtractResult) : String :=
  if er.suffix ≠ "" then er.domain ++ "." ++ er.suffix else er.domain

/-- `normalize_domain(website)`: `None` on empty/whitespace input, on an
extraction failure, on a missing domain label, and on a blocklisted
registrable domain; otherwise the lowercased registrable domain. -/
def normalize_domain (extract : String → Option ExtractResult)
    (website : String) : Option String :=
  if website = "" then none
  else
    let w := pyStrip website
    if w = "" then none
    else
      match extract (websiteUrl w) with
      | none => none
      | some er =>
        if er.domain = "" then none
        else
          let domain := toLowerStr (registrableOf er)
          if domain ∈ SOCIAL_DOMAINS then none else some domain

/-- Public suffixes needed by the concrete inputs of claim C8. -/
def suffixList : List String := ["com", "org", "net", "io", "co"]

/-- Strip a leading `http://` / `https://` scheme (case-insensitive). -/
def dropScheme (u : String) : String :=
  if List.isPrefixOf ("https://".data) (lcData u) then String.mk (u.data.drop 8)
  else if List.isPrefixOf ("http://".data) (lcData u) then String.mk (u.data.drop 7)
  else u

/-- Concrete model of the third-party `tldextract.extract` dependency for
the inputs the claim exercises: lowercase the host part of the URL and
split off a known public suffix; the label before it is the registrable
domain label. -/
def tldextractModel (url : String) : Option ExtractResult :=
  let host := (splitOnChar '/' (lcData (dropScheme url))).headD []
  match (splitOnChar '.' host).reverse with
  | [] => some ⟨"", ""⟩
  | [only] =>
    if String.mk only ∈ suffixList then some ⟨"", String.mk only⟩
    else some ⟨String.mk only, ""⟩
  | lastL :: domL :: _ =>
    if String.mk lastL ∈ suffixList then some ⟨String.mk domL, String.mk lastL⟩
    else some ⟨String.mk lastL, ""⟩

/-- Claim C8: `normalize_domain` maps `https://Example.com/about` to
`example.com`; blocks `linkedin.com/company/acme`; returns `none` for
every empty-or-whitespace input, whenever extraction fails (no exception
escapes — the failure degrades to `none`), whenever the extraction
yields no domain label, and whenever the registrable domain is on the
social-network blocklist. -/
theorem C8_normalize_domain :
    normalize_domain tldextractModel "https://Example.com/about" =
      some "example.com" ∧
    normalize_domain tldextractModel "linkedin.com/company/acme" = none ∧
    (∀ ex w, pyStrip w = "" → normalize_domain ex w = none) ∧
    (∀ ex w, ex (websiteUrl (pyStrip w)) = none → normalize_domain ex w = none) ∧
    (∀ ex w er, ex (websiteUrl (pyStrip w)) = some er → er.domain = "" →
      normalize_domain ex w = none) ∧
    (∀ ex w er, ex (websiteUrl (pyStrip w)) = some er →
      toLowerStr (registrableOf er) ∈ SOCIAL_DOMAINS →
      normalize_domain ex w = none) := by
  refine ⟨by decide, by decide, ?_, ?_, ?_, ?_⟩
  · intro ex w hw
    by_cases h0 : w = ""
    · simp [normalize_domain, h0]
    · simp [normalize_domain, h0, hw]
  · intro ex w hex
    by_cases h0 : w = ""
    · simp [normalize_domain, h0]
    · by_cases h1 : pyStrip w = ""
      · simp [normalize_domain, h0, h1]
      · simp [normalize_domain, h0, h1, hex]
  · intro ex w er hex hdom
    by_cases h0 : w = ""
    · simp [normalize_domain, h0]
    · by_cases h1 : pyStrip w = ""
      · simp [normalize_domain, h0, h1]
      · simp [normalize_domain, h0, h1, hex, hdom]
  · intro ex w er hex hblock
    by_cases h0 : w = ""
    · simp [normalize_domain, h0]
    · by_cases h1 : pyStrip w = ""
      · simp [normalize_domain, h0, h1]
      · by_cases h2 : er.domain = ""
        · simp [normalize_domain, h0, h1, hex, h2]
        · simp [normalize_domain, h0, h1, hex, h2, hblock]

theorem C8_normalize_domain_witness :
    normalize_domain tldextractModel "   " = none ∧
    normalize_domain tldextractModel "Facebook.com/acme" = none := by
  constructor
  · exact C8_normalize_domain.2.2.1 tldextractModel "   " (by decide)
  · exact C8_normalize_domain.2.2.2.2.2 tldextractModel "Facebook.com/acme"
      ⟨"facebook", "com"⟩ (by decide) (by decide)

end EmailEnricher
